import Mathlib

/-!
Shallow embedding of `logic.py` (class `DB_Map`) from the bot_map repository.

Modelling conventions:

* SQLite's `LOWER` folds only the ASCII letters `A`–`Z`; `asciiLower` and
  `sqlLower` model it.
* Python's `str.strip()` removes leading and trailing whitespace; `pyStrip`
  models it on the ASCII whitespace characters.
* The `cities` table is the list `DBState.cities` in scan order (so SQL
  `fetchone` over a `WHERE` clause is `List.find?`); the `users_cities` table
  is the list `DBState.users_cities`.  Its `PRIMARY KEY (user_id, city_id)`
  constraint (created by `create_user_table`) appears as a `Nodup` hypothesis
  where a proof needs it, and `INSERT OR IGNORE` is an insert guarded by
  membership.  `ORDER BY c.city` is `List.insertionSort` on the city name.
* SQL floats are embedded as rationals.
* Matplotlib/cartopy calls are embedded as a trace of drawing events (`Ev`).
  `plt.savefig` may raise (e.g. an invalid path), modelled by the `saveOk`
  flag of `create_graph`; a Python exception propagating out of the function
  shows up as a trace that stops early together with result `none`.
-/

/-- Python/ASCII whitespace, the characters `str.strip()` removes. -/
def isPySpace (c : Char) : Bool :=
  c = ' ' || c = '\t' || c = '\n' || c = '\x0b' || c = '\x0c' || c = '\r'

/-- ASCII-only lower-casing of one character, as SQLite's `LOWER` performs. -/
def asciiLower (c : Char) : Char :=
  if c = 'A' then 'a' else if c = 'B' then 'b' else if c = 'C' then 'c'
  else if c = 'D' then 'd' else if c = 'E' then 'e' else if c = 'F' then 'f'
  else if c = 'G' then 'g' else if c = 'H' then 'h' else if c = 'I' then 'i'
  else if c = 'J' then 'j' else if c = 'K' then 'k' else if c = 'L' then 'l'
  else if c = 'M' then 'm' else if c = 'N' then 'n' else if c = 'O' then 'o'
  else if c = 'P' then 'p' else if c = 'Q' then 'q' else if c = 'R' then 'r'
  else if c = 'S' then 's' else if c = 'T' then 't' else if c = 'U' then 'u'
  else if c = 'V' then 'v' else if c = 'W' then 'w' else if c = 'X' then 'x'
  else if c = 'Y' then 'y' else if c = 'Z' then 'z' else c

/-- SQLite `LOWER` on a whole string. -/
def sqlLower (s : String) : String := ⟨s.data.map asciiLower⟩

/-- `str.strip()` on the underlying character list. -/
def stripChars (l : List Char) : List Char :=
  ((l.dropWhile isPySpace).reverse.dropWhile isPySpace).reverse

/-- Python `str.strip()`. -/
def pyStrip (s : String) : String := ⟨stripChars s.data⟩

/-- One row of the pre-populated `cities` catalog table:
`id, city, lat, lng, country, population`. -/
structure CityRow where
  id : Int
  city : String
  lat : ℚ
  lng : ℚ
  country : String
  population : Int
deriving DecidableEq

/-- The persisted state `DB_Map` operates on: the `cities` catalog and the
`users_cities` association table (rows `(user_id, city_id)`). -/
structure DBState where
  cities : List CityRow
  users_cities : List (Int × Int)
deriving DecidableEq

/-- The `WHERE LOWER(city)=LOWER(?)` predicate with the parameter bound to
`city_name.strip()`, as both catalog queries issue it. -/
def cityNameMatches (city_name : String) (c : CityRow) : Bool :=
  sqlLower c.city == sqlLower (pyStrip city_name)

/-- `DB_Map.get_city_by_name`: `SELECT id, city, lat, lng, country, population
FROM cities WHERE LOWER(city)=LOWER(?)` with `fetchone`. -/
def get_city_by_name (db : DBState) (city_name : String) : Option CityRow :=
  db.cities.find? (cityNameMatches city_name)

/-- `DB_Map.get_coords_by_name`: `SELECT lat, lng, city FROM cities WHERE
LOWER(city)=LOWER(?)` with `fetchone`, the row unpacked into
`(float(lat), float(lng), str(name))`. -/
def get_coords_by_name (db : DBState) (city_name : String) :
    Option (ℚ × ℚ × String) :=
  (db.cities.find? (cityNameMatches city_name)).map fun c => (c.lat, c.lng, c.city)

/-- `DB_Map.add_city`: resolve the name, return `False` without touching the
state when unresolved; otherwise `INSERT OR IGNORE` the pair and return
`True`. -/
def add_city (db : DBState) (user_id : Int) (city_name : String) :
    Bool × DBState :=
  match get_city_by_name db city_name with
  | none => (false, db)
  | some c =>
      (true,
        { db with
          users_cities :=
            if (user_id, c.id) ∈ db.users_cities then db.users_cities
            else db.users_cities ++ [(user_id, c.id)] })

/-- One dict of `DB_Map.select_cities`' result list:
`{"city": …, "lat": …, "lon": …, "lng": …, "country": …}`. -/
structure FavRow where
  city : String
  lat : ℚ
  lon : ℚ
  lng : ℚ
  country : String
deriving DecidableEq

/-- The dict built for one joined row `(c.city, c.lat, c.lng, c.country)`;
the longitude is put under both the `lon` and the `lng` key. -/
def mkFavRow (c : CityRow) : FavRow :=
  { city := c.city, lat := c.lat, lon := c.lng, lng := c.lng, country := c.country }

/-- Lexicographic code-point comparison of text, SQLite's default BINARY
collation: `charsLe x y` is `x ≤ y`. -/
def charsLe : List Char → List Char → Bool
  | [], _ => true
  | _ :: _, [] => false
  | a :: as, b :: bs =>
      if a < b then true
      else if b < a then false
      else charsLe as bs

/-- Comparison used by `ORDER BY c.city` (ascending). -/
def favLE (a b : FavRow) : Prop := charsLe a.city.data b.city.data = true

instance : DecidableRel favLE := fun a b =>
  inferInstanceAs (Decidable (charsLe a.city.data b.city.data = true))

instance : IsTotal FavRow favLE :=
  ⟨fun a b => by
    unfold favLE
    generalize a.city.data = x
    generalize b.city.data = y
    induction x generalizing y with
    | nil => exact Or.inl rfl
    | cons c cs ih =>
        cases y with
        | nil => exact Or.inr rfl
        | cons d ds =>
            rcases lt_trichotomy c d with h | h | h
            · refine Or.inl ?_
              unfold charsLe
              rw [if_pos h]
            · subst h
              rcases ih ds with hr | hr
              · refine Or.inl ?_
                unfold charsLe
                rw [if_neg (lt_irrefl c), if_neg (lt_irrefl c)]
                exact hr
              · refine Or.inr ?_
                unfold charsLe
                rw [if_neg (lt_irrefl c), if_neg (lt_irrefl c)]
                exact hr
            · refine Or.inr ?_
              unfold charsLe
              rw [if_pos h]⟩

instance : IsTrans FavRow favLE :=
  ⟨fun a b c hab hbc => by
    unfold favLE at hab hbc ⊢
    revert hab hbc
    generalize a.city.data = x
    generalize b.city.data = y
    generalize c.city.data = z
    revert y z
    induction x with
    | nil => intro y z _ _; rfl
    | cons u us ih =>
        intro y z hxy hyz
        cases y with
        | nil => simp [charsLe] at hxy
        | cons v vs =>
            cases z with
            | nil => simp [charsLe] at hyz
            | cons w ws =>
                unfold charsLe at hxy hyz ⊢
                rcases lt_trichotomy u v with h1 | h1 | h1
                · rcases lt_trichotomy v w with h2 | h2 | h2
                  · rw [if_pos (lt_trans h1 h2)]
                  · subst h2
                    rw [if_pos h1]
                  · rw [if_neg (lt_asymm h2), if_pos h2] at hyz
                    exact Bool.noConfusion hyz
                · subst h1
                  rcases lt_trichotomy u w with h2 | h2 | h2
                  · rw [if_pos h2]
                  · subst h2
                    rw [if_neg (lt_irrefl u)] at hxy hyz ⊢
                    rw [if_neg (lt_irrefl u)] at hxy hyz ⊢
                    exact ih vs ws hxy hyz
                  · rw [if_neg (lt_asymm h2), if_pos h2] at hyz
                    exact Bool.noConfusion hyz
                · rw [if_neg (lt_asymm h1), if_pos h1] at hxy
                  exact Bool.noConfusion hxy⟩

/-- The `FROM users_cities uc JOIN cities c ON c.id = uc.city_id WHERE
uc.user_id = ?` join, in table scan order, each row turned into its result
dict. -/
def joinRows (db : DBState) (user_id : Int) : List FavRow :=
  (db.users_cities.filter fun p => p.1 == user_id).flatMap fun p =>
    (db.cities.filter fun c => c.id == p.2).map mkFavRow

/-- `DB_Map.select_cities`: the join above followed by `ORDER BY c.city`. -/
def select_cities (db : DBState) (user_id : Int) : List FavRow :=
  List.insertionSort favLE (joinRows db user_id)

/-- A point dict passed to `DB_Map.create_graph`; `none` means the key is
absent from the dict. -/
structure PointRec where
  city : Option String
  name : Option String
  lat : ℚ
  lon : Option ℚ
  lng : Option ℚ
deriving DecidableEq

/-- Abbreviation for building a point dict. -/
def mkPoint (c n : Option String) (la : ℚ) (lo lg : Option ℚ) : PointRec :=
  { city := c, name := n, lat := la, lon := lo, lng := lg }

/-- `str(item.get("city") or item.get("name") or "")`: Python `or` skips a
missing key and an empty string, both falsy. -/
def pointName (p : PointRec) : String :=
  match p.city with
  | some s => if s = "" then (match p.name with | some t => t | none => "") else s
  | none => match p.name with | some t => t | none => ""

/-- `item.get("lon", item.get("lng"))`: the `lon` key if present, otherwise
the `lng` key; `none` when both are absent, in which case `float(None)`
raises `TypeError`. -/
def pointLon (p : PointRec) : Option ℚ :=
  match p.lon with
  | some v => some v
  | none => p.lng

/-- One drawing/IO event of the rendering routine. -/
inductive Ev where
  | land
  | ocean
  | coastline
  | borders
  | marker (lon lat : ℚ)
  | text (x y : ℚ) (label : String)
  | save (path : String)
  | close
deriving DecidableEq

/-- The per-point loop of `create_graph`: one marker per point, plus the text
label at `(lon + 1, lat + 1)` when the name is non-empty.  The boolean is
`false` when some point resolves no longitude, i.e. `float(None)` raised; the
trace then stops at that point. -/
def drawPoints : List PointRec → List Ev × Bool
  | [] => ([], true)
  | p :: ps =>
      match pointLon p with
      | none => ([], false)
      | some lon =>
          ((Ev.marker lon p.lat ::
              (if pointName p = "" then []
               else [Ev.text (lon + 1) (p.lat + 1) (pointName p)])) ++
            (drawPoints ps).1,
           (drawPoints ps).2)

/-- The base-map layers added before the points. -/
def baseLayers : List Ev := [Ev.land, Ev.ocean, Ev.coastline, Ev.borders]

/-- `DB_Map.create_graph`.  `saveOk` tells whether `plt.savefig` succeeds;
`Ev.save` records the attempt to write the file.  The second component is
`some out_path` when the function returns normally and `none` when an
exception propagates out; the first component is the events that actually
happened before that exit.  In the source, `plt.close(fig)` is the statement
after `plt.savefig`, with no `try`/`finally` around them. -/
def create_graph (out_path : String) (cities : List PointRec) (saveOk : Bool) :
    List Ev × Option String :=
  if (drawPoints cities).2 then
    if saveOk then
      (baseLayers ++ (drawPoints cities).1 ++ [Ev.save out_path, Ev.close],
        some out_path)
    else
      (baseLayers ++ (drawPoints cities).1 ++ [Ev.save out_path], none)
  else
    (baseLayers ++ (drawPoints cities).1, none)

/-! Concrete data used by the witnesses below. -/

/-- A sample catalog row. -/
def londonRow : CityRow :=
  { id := 1, city := "London", lat := 51, lng := 0,
    country := "United Kingdom", population := 8982000 }

/-- A sample catalog row. -/
def zurichRow : CityRow :=
  { id := 2, city := "Zurich", lat := 47, lng := 8,
    country := "Switzerland", population := 434008 }

/-- A sample catalog row. -/
def amsterdamRow : CityRow :=
  { id := 3, city := "Amsterdam", lat := 52, lng := 4,
    country := "Netherlands", population := 921402 }

/-- A sample database state with an empty favorites table. -/
def wDB : DBState :=
  { cities := [londonRow, zurichRow, amsterdamRow], users_cities := [] }

/-- The same state with the favorites table replaced. -/
def withFavs (db : DBState) (f : List (Int × Int)) : DBState :=
  { db with users_cities := f }

/-- A sample state where user 7 has favorited London (`city_id` 1). -/
def wDB2 : DBState :=
  { cities := [londonRow, zurichRow, amsterdamRow], users_cities := [(7, 1)] }

/-- A sample state where user 5 has favorited Zurich then Amsterdam. -/
def wFavsDB : DBState :=
  { cities := [londonRow, zurichRow, amsterdamRow],
    users_cities := [(5, 2), (5, 3)] }

/-- A point dict carrying neither a `city` nor a `name` key. -/
def noLabelPoint : PointRec :=
  { city := none, name := none, lat := 5, lon := some 7, lng := none }

/-- A point dict with a proper label under the `city` key. -/
def labeledPoint : PointRec :=
  { city := some "X", name := none, lat := 10, lon := some 20, lng := none }

/-! ### Helper lemmas -/

/-- The per-point loop emits only marker and text events, never a close. -/
theorem close_not_mem_drawPoints (cities : List PointRec) :
    Ev.close ∉ (drawPoints cities).1 := by
  induction cities with
  | nil => simp [drawPoints]
  | cons p ps ih =>
      unfold drawPoints
      cases hl : pointLon p with
      | none => simp
      | some lon =>
          by_cases hn : pointName p = "" <;> simp_all

/-- If some point resolves no longitude, the drawing loop raises. -/
theorem drawPoints_fails_of_missing_lon {cities : List PointRec}
    (h : ∃ p ∈ cities, pointLon p = none) : (drawPoints cities).2 = false := by
  induction cities with
  | nil => simp at h
  | cons a ps ih =>
      obtain ⟨p, hp, hnone⟩ := h
      unfold drawPoints
      cases ha : pointLon a with
      | none => rfl
      | some lon =>
          rcases List.mem_cons.mp hp with h1 | h1
          · subst h1; rw [ha] at hnone; exact absurd hnone (by simp)
          · exact ih ⟨p, h1, hnone⟩

/-- Replacing one point of the input by a point with the same latitude,
resolved longitude and label leaves the drawing loop's output unchanged. -/
theorem drawPoints_congr_point {p q : PointRec} (hlat : p.lat = q.lat)
    (hlon : pointLon p = pointLon q) (hname : pointName p = pointName q)
    (pre post : List PointRec) :
    drawPoints (pre ++ p :: post) = drawPoints (pre ++ q :: post) := by
  induction pre with
  | nil =>
      simp only [List.nil_append]
      unfold drawPoints
      rw [hlon, hlat, hname]
  | cons a pre ih =>
      simp only [List.cons_append]
      unfold drawPoints
      rw [ih]

/-- Each successfully drawn point contributes its marker event, and its text
event when its label is non-empty. -/
theorem drawPoints_marker_mem {cities : List PointRec}
    (h : (drawPoints cities).2 = true) {p : PointRec} (hp : p ∈ cities)
    {lv : ℚ} (hl : pointLon p = some lv) :
    Ev.marker lv p.lat ∈ (drawPoints cities).1 ∧
      (pointName p ≠ "" →
        Ev.text (lv + 1) (p.lat + 1) (pointName p) ∈ (drawPoints cities).1) := by
  induction cities with
  | nil => cases hp
  | cons a ps ih =>
      unfold drawPoints at h ⊢
      cases ha : pointLon a with
      | none => rw [ha] at h; simp at h
      | some la =>
          rw [ha] at h
          simp only at h
          rcases List.mem_cons.mp hp with h1 | h1
          · subst h1
            rw [ha] at hl
            injection hl with hlv
            subst hlv
            constructor
            · simp
            · intro hne; simp [hne]
          · obtain ⟨m, t⟩ := ih h h1
            constructor
            · simp [List.mem_append, m]
            · intro hne; simp [List.mem_append, t hne]

/-! ### Claim theorems -/

/-- C1: if the catalog resolves no city for the given name, `add_city`
returns `false` and performs no mutation, so in particular `select_cities`
returns the same list before and after the call. -/
theorem add_city_unresolved_no_mutation (db : DBState) (u : Int) (s : String)
    (h : get_city_by_name db s = none) :
    add_city db u s = (false, db) ∧
      ∀ u' : Int, select_cities (add_city db u s).2 u' = select_cities db u' := by
  have h1 : add_city db u s = (false, db) := by unfold add_city; rw [h]
  exact ⟨h1, fun u' => by rw [h1]⟩

/-- Witness for C1 at a concrete state and name. -/
theorem add_city_unresolved_no_mutation_witness :
    get_city_by_name wDB "Atlantis" = none ∧
      (add_city wDB 7 "Atlantis" = (false, wDB) ∧
        ∀ u' : Int,
          select_cities (add_city wDB 7 "Atlantis").2 u' = select_cities wDB u') :=
  ⟨by decide, add_city_unresolved_no_mutation wDB 7 "Atlantis" (by decide)⟩

/-- C5: `get_coords_by_name` is exactly the projection of `get_city_by_name`
to `(lat, lng, city)`: it succeeds if and only if the lookup does, and then
returns precisely those three fields of the looked-up record. -/
theorem get_coords_projection (db : DBState) (name : String) :
    get_coords_by_name db name =
      (get_city_by_name db name).map fun c => (c.lat, c.lng, c.city) := rfl

/-- C4 counterexample: when the save raises (`saveOk = false`), `create_graph`
exits without a close event — the canvas is not released on that exit path. -/
theorem create_graph_save_failure_leaves_canvas_open :
    (create_graph "bad.png" [] false).2 = none ∧
      Ev.close ∉ (create_graph "bad.png" [] false).1 := by decide

/-- C4 amended: `create_graph` closes the canvas on the successful exit path
(after writing the file), but when the save raises, the exception propagates
with the canvas left open: no close event is in the trace. -/
theorem create_graph_close_paths (path : String) (cities : List PointRec)
    (h : (drawPoints cities).2 = true) :
    ((create_graph path cities true).2 = some path ∧
      Ev.close ∈ (create_graph path cities true).1) ∧
      Ev.close ∉ (create_graph path cities false).1 := by
  have hmem : Ev.close ∉ (drawPoints cities).1 := close_not_mem_drawPoints cities
  refine ⟨⟨?_, ?_⟩, ?_⟩
  · simp [create_graph, h]
  · simp [create_graph, h, List.mem_append]
  · simp [create_graph, h, List.mem_append, baseLayers]
    exact hmem

/-- Witness for C4 (amended) at a concrete path and point list. -/
theorem create_graph_close_paths_witness :
    (drawPoints []).2 = true ∧
      (((create_graph "map.png" [] true).2 = some "map.png" ∧
        Ev.close ∈ (create_graph "map.png" [] true).1) ∧
        Ev.close ∉ (create_graph "map.png" [] false).1) :=
  ⟨by decide, create_graph_close_paths "map.png" [] (by decide)⟩

/-- C7: a point supplying its longitude only under `lng` renders identically
to one supplying it only under `lon` with the same value, in any position of
the input; a point supplying neither key makes the whole call raise
(result `none`), not silently default. -/
theorem lon_lng_keys_equivalent :
    (∀ (path : String) (saveOk : Bool) (pre post : List PointRec)
        (c n : Option String) (la v : ℚ),
        create_graph path (pre ++ mkPoint c n la none (some v) :: post) saveOk =
          create_graph path (pre ++ mkPoint c n la (some v) none :: post) saveOk) ∧
    (∀ (path : String) (saveOk : Bool) (cities : List PointRec),
        (∃ p ∈ cities, p.lon = none ∧ p.lng = none) →
        (create_graph path cities saveOk).2 = none) := by
  constructor
  · intro path saveOk pre post c n la v
    have hd : drawPoints (pre ++ mkPoint c n la none (some v) :: post) =
        drawPoints (pre ++ mkPoint c n la (some v) none :: post) :=
      @drawPoints_congr_point (mkPoint c n la none (some v))
        (mkPoint c n la (some v) none) rfl rfl rfl pre post
    simp only [create_graph, hd]
  · intro path saveOk cities hex
    obtain ⟨p, hp, h1, h2⟩ := hex
    have hnone : pointLon p = none := by simp [pointLon, h1, h2]
    have hfail : (drawPoints cities).2 = false :=
      drawPoints_fails_of_missing_lon ⟨p, hp, hnone⟩
    simp [create_graph, hfail]

/-- Witness for C7 at concrete points. -/
theorem lon_lng_keys_equivalent_witness :
    (create_graph "w7.png"
        ([] ++ mkPoint (some "P") none 2 none (some 3) :: []) true =
      create_graph "w7.png"
        ([] ++ mkPoint (some "P") none 2 (some 3) none :: []) true) ∧
    ((∃ p ∈ [mkPoint (some "Q") none 1 none none],
        p.lon = none ∧ p.lng = none) ∧
      (create_graph "w7.png" [mkPoint (some "Q") none 1 none none] true).2 =
        none) :=
  ⟨lon_lng_keys_equivalent.1 "w7.png" true [] [] (some "P") none 2 3,
   by decide,
   lon_lng_keys_equivalent.2 "w7.png" true _ (by decide)⟩

/-- C8 counterexample: a point providing no label is rendered with its marker
but with no text event at all — in particular no label at the offset
position — contradicting the claim that every point gets both a marker and a
text label. -/
theorem point_without_label_has_no_text :
    create_graph "out.png" [noLabelPoint] true =
      ([Ev.land, Ev.ocean, Ev.coastline, Ev.borders, Ev.marker 7 5,
        Ev.save "out.png", Ev.close], some "out.png") ∧
      (∀ x y s, Ev.text x y s ∈ (create_graph "out.png" [noLabelPoint] true).1 →
        False) := by
  constructor
  · decide
  · intro x y s hmem
    rw [show create_graph "out.png" [noLabelPoint] true =
      ([Ev.land, Ev.ocean, Ev.coastline, Ev.borders, Ev.marker 7 5,
        Ev.save "out.png", Ev.close], some "out.png") from by decide] at hmem
    simp at hmem

/-- C8 amended: when the drawing loop succeeds, every input point contributes
one marker event at its (longitude, latitude); a text label at the fixed
`(+1, +1)` offset is additionally drawn exactly for the points whose label is
non-empty. -/
theorem create_graph_marker_and_label (path : String) (saveOk : Bool)
    (cities : List PointRec) (h : (drawPoints cities).2 = true)
    (p : PointRec) (hp : p ∈ cities) (lv : ℚ) (hl : pointLon p = some lv) :
    Ev.marker lv p.lat ∈ (create_graph path cities saveOk).1 ∧
      (pointName p ≠ "" →
        Ev.text (lv + 1) (p.lat + 1) (pointName p) ∈
          (create_graph path cities saveOk).1) := by
  obtain ⟨m, t⟩ := drawPoints_marker_mem h hp hl
  unfold create_graph
  rw [h]
  cases saveOk <;> simp [List.mem_append, m] <;> intro hne <;> simp [t hne]

/-- Witness for C8 (amended) at a concrete labeled point. -/
theorem create_graph_marker_and_label_witness :
    ((drawPoints [labeledPoint]).2 = true ∧ labeledPoint ∈ [labeledPoint] ∧
      pointLon labeledPoint = some 20) ∧
    (Ev.marker 20 labeledPoint.lat ∈
        (create_graph "w8.png" [labeledPoint] true).1 ∧
      (pointName labeledPoint ≠ "" →
        Ev.text (20 + 1) (labeledPoint.lat + 1) (pointName labeledPoint) ∈
          (create_graph "w8.png" [labeledPoint] true).1)) :=
  ⟨⟨by decide, by decide, by decide⟩,
    create_graph_marker_and_label "w8.png" true [labeledPoint] (by decide)
      labeledPoint (by decide) 20 (by decide)⟩

/-- C10: a point whose label is empty — an empty-string label or neither a
`city` nor a `name` key — still renders without error: its marker is
plotted, the file is written and returned, and no text event is drawn. -/
theorem empty_label_point_renders (path : String) (p : PointRec) (lv : ℚ)
    (h : pointName p = "" ∨ (p.city = none ∧ p.name = none))
    (hl : pointLon p = some lv) :
    create_graph path [p] true =
      (baseLayers ++ [Ev.marker lv p.lat, Ev.save path, Ev.close],
        some path) := by
  have hname : pointName p = "" := by
    rcases h with h | ⟨h1, h2⟩
    · exact h
    · simp [pointName, h1, h2]
  simp [create_graph, drawPoints, hl, hname, baseLayers]

/-- Witness for C10 at a concrete point without label keys. -/
theorem empty_label_point_renders_witness :
    (pointName noLabelPoint = "" ∨
      (noLabelPoint.city = none ∧ noLabelPoint.name = none)) ∧
    create_graph "w10.png" [noLabelPoint] true =
      (baseLayers ++ [Ev.marker 7 noLabelPoint.lat, Ev.save "w10.png",
        Ev.close], some "w10.png") :=
  ⟨by decide,
    empty_label_point_renders "w10.png" noLabelPoint 7 (by decide) (by decide)⟩

/-- ASCII lower-casing maps no character into or out of the whitespace set. -/
theorem isPySpace_asciiLower (c : Char) :
    isPySpace (asciiLower c) = isPySpace c := by
  by_cases h1 : c = 'A'
  · subst h1; decide
  by_cases h2 : c = 'B'
  · subst h2; decide
  by_cases h3 : c = 'C'
  · subst h3; decide
  by_cases h4 : c = 'D'
  · subst h4; decide
  by_cases h5 : c = 'E'
  · subst h5; decide
  by_cases h6 : c = 'F'
  · subst h6; decide
  by_cases h7 : c = 'G'
  · subst h7; decide
  by_cases h8 : c = 'H'
  · subst h8; decide
  by_cases h9 : c = 'I'
  · subst h9; decide
  by_cases h10 : c = 'J'
  · subst h10; decide
  by_cases h11 : c = 'K'
  · subst h11; decide
  by_cases h12 : c = 'L'
  · subst h12; decide
  by_cases h13 : c = 'M'
  · subst h13; decide
  by_cases h14 : c = 'N'
  · subst h14; decide
  by_cases h15 : c = 'O'
  · subst h15; decide
  by_cases h16 : c = 'P'
  · subst h16; decide
  by_cases h17 : c = 'Q'
  · subst h17; decide
  by_cases h18 : c = 'R'
  · subst h18; decide
  by_cases h19 : c = 'S'
  · subst h19; decide
  by_cases h20 : c = 'T'
  · subst h20; decide
  by_cases h21 : c = 'U'
  · subst h21; decide
  by_cases h22 : c = 'V'
  · subst h22; decide
  by_cases h23 : c = 'W'
  · subst h23; decide
  by_cases h24 : c = 'X'
  · subst h24; decide
  by_cases h25 : c = 'Y'
  · subst h25; decide
  by_cases h26 : c = 'Z'
  · subst h26; decide
  have hid : asciiLower c = c := by
    unfold asciiLower
    rw [if_neg h1, if_neg h2, if_neg h3, if_neg h4, if_neg h5, if_neg h6, if_neg h7, if_neg h8, if_neg h9, if_neg h10, if_neg h11, if_neg h12, if_neg h13, if_neg h14, if_neg h15, if_neg h16, if_neg h17, if_neg h18, if_neg h19, if_neg h20, if_neg h21, if_neg h22, if_neg h23, if_neg h24, if_neg h25, if_neg h26]
  rw [hid]

/-- Stripping commutes with ASCII lower-casing of every character. -/
theorem stripChars_map_asciiLower (l : List Char) :
    stripChars (l.map asciiLower) = (stripChars l).map asciiLower := by
  have hfun : (isPySpace ∘ asciiLower) = isPySpace := funext isPySpace_asciiLower
  unfold stripChars
  rw [List.dropWhile_map, hfun, ← List.map_reverse, List.dropWhile_map, hfun,
    ← List.map_reverse]

/-- Two inputs equal up to ASCII case stay equal up to ASCII case after
trimming, so they produce the same SQL lookup key. -/
theorem sqlLower_pyStrip_congr {s t : String} (h : sqlLower s = sqlLower t) :
    sqlLower (pyStrip s) = sqlLower (pyStrip t) := by
  have hs : s.data.map asciiLower = t.data.map asciiLower :=
    congrArg String.data h
  have hd : (stripChars s.data).map asciiLower =
      (stripChars t.data).map asciiLower := by
    rw [← stripChars_map_asciiLower, ← stripChars_map_asciiLower, hs]
  show (⟨(stripChars s.data).map asciiLower⟩ : String) =
    ⟨(stripChars t.data).map asciiLower⟩
  rw [hd]

/-- C3: the catalog lookup is a case-insensitive exact match on the trimmed
input: any two inputs that agree up to ASCII letter case give the same
result (in particular the same full city record when one resolves), and an
input whose trimmed, case-folded form matches no catalog name returns
`none`. -/
theorem get_city_by_name_case_insensitive (db : DBState) :
    (∀ s t : String, sqlLower s = sqlLower t →
      get_city_by_name db s = get_city_by_name db t) ∧
    (∀ s : String,
      (∀ c ∈ db.cities, sqlLower c.city ≠ sqlLower (pyStrip s)) →
      get_city_by_name db s = none) := by
  constructor
  · intro s t h
    have hk : sqlLower (pyStrip s) = sqlLower (pyStrip t) :=
      sqlLower_pyStrip_congr h
    unfold get_city_by_name
    congr 1
    funext c
    unfold cityNameMatches
    rw [hk]
  · intro s hall
    unfold get_city_by_name
    apply List.find?_eq_none.mpr
    intro c hc
    simp only [cityNameMatches, beq_iff_eq]
    exact hall c hc

/-- Witness for C3: `"London"` and `"LONDON"` resolve to the same record, and
an unknown name resolves to `none`. -/
theorem get_city_by_name_case_insensitive_witness :
    (sqlLower "London" = sqlLower "LONDON" ∧
      get_city_by_name wDB "London" = get_city_by_name wDB "LONDON") ∧
    ((∀ c ∈ wDB.cities, sqlLower c.city ≠ sqlLower (pyStrip "Gotham")) ∧
      get_city_by_name wDB "Gotham" = none) :=
  ⟨⟨by decide,
      (get_city_by_name_case_insensitive wDB).1 "London" "LONDON" (by decide)⟩,
    ⟨by decide,
      (get_city_by_name_case_insensitive wDB).2 "Gotham" (by decide)⟩⟩

/-- C9: every record `select_cities` returns carries the same value under its
`lon` and its `lng` key, both equal to the catalog's stored longitude of the
originating city row. -/
theorem select_cities_lon_eq_lng (db : DBState) (u : Int) (row : FavRow)
    (h : row ∈ select_cities db u) :
    row.lon = row.lng ∧
      ∃ c ∈ db.cities, row = mkFavRow c ∧ row.lon = c.lng ∧
        row.city = c.city := by
  have hjoin : row ∈ joinRows db u := by
    unfold select_cities at h
    exact (List.perm_insertionSort favLE (joinRows db u)).mem_iff.mp h
  unfold joinRows at hjoin
  obtain ⟨p, hp, hrow⟩ := List.mem_flatMap.mp hjoin
  obtain ⟨c, hc, hcr⟩ := List.mem_map.mp hrow
  have hcc : c ∈ db.cities := List.mem_of_mem_filter hc
  refine ⟨by rw [← hcr]; rfl, c, hcc, hcr.symm, by rw [← hcr]; rfl,
    by rw [← hcr]; rfl⟩

/-- Witness for C9 at a concrete state with one favorite. -/
theorem select_cities_lon_eq_lng_witness :
    mkFavRow londonRow ∈ select_cities wDB2 7 ∧
      ((mkFavRow londonRow).lon = (mkFavRow londonRow).lng ∧
        ∃ c ∈ wDB2.cities, mkFavRow londonRow = mkFavRow c ∧
          (mkFavRow londonRow).lon = c.lng ∧
          (mkFavRow londonRow).city = c.city) :=
  ⟨by decide, select_cities_lon_eq_lng wDB2 7 (mkFavRow londonRow) (by decide)⟩

/-- With unique catalog ids (the `cities.id` primary key), the join's inner
filter for a known row yields exactly that row. -/
theorem filter_id_eq_single {cities : List CityRow} {c : CityRow}
    (hids : (cities.map CityRow.id).Nodup) (hc : c ∈ cities) :
    cities.filter (fun x => x.id == c.id) = [c] := by
  induction cities with
  | nil => cases hc
  | cons a l ih =>
      rw [List.map_cons, List.nodup_cons] at hids
      obtain ⟨ha, hl⟩ := hids
      by_cases hac : a.id = c.id
      · have hceq : c = a := by
          rcases List.mem_cons.mp hc with h1 | h1
          · exact h1
          · exact absurd
              (by rw [hac]; exact List.mem_map_of_mem CityRow.id h1) ha
        subst hceq
        rw [show List.filter (fun x => x.id == c.id) (c :: l) =
            c :: List.filter (fun x => x.id == c.id) l from
          List.filter_cons_of_pos (by simp)]
        have hnil : List.filter (fun x => x.id == c.id) l = [] := by
          rw [List.filter_eq_nil_iff]
          intro x hx
          simp only [beq_iff_eq]
          intro he
          exact ha (by rw [← he]; exact List.mem_map_of_mem CityRow.id hx)
        rw [hnil]
      · have h1 : c ∈ l := by
          rcases List.mem_cons.mp hc with h1 | h1
          · exact absurd (by rw [h1]) hac
          · exact h1
        rw [show List.filter (fun x => x.id == c.id) (a :: l) =
            List.filter (fun x => x.id == c.id) l from
          List.filter_cons_of_neg (by simp [hac])]
        exact ih hl h1

/-- Counting a known city's rows among the joined rows of a favorites list
whose entries all belong to user `u` equals counting that city's pair in the
favorites list, given the catalog's id and name uniqueness. -/
theorem countP_flatMap_eq_count {cities : List CityRow} {c : CityRow} (u : Int)
    (hids : (cities.map CityRow.id).Nodup)
    (hnames : (cities.map CityRow.city).Nodup) (hc : c ∈ cities) :
    ∀ L : List (Int × Int), (∀ p ∈ L, p.1 = u) →
      ((L.flatMap fun p =>
          (cities.filter fun x => x.id == p.2).map mkFavRow).countP
        fun r => r.city == c.city) = L.count (u, c.id) := by
  intro L
  induction L with
  | nil => intro _; rfl
  | cons p L ih =>
      intro hL
      have hp1 : p.1 = u := hL p (List.mem_cons_self p L)
      rw [List.flatMap_cons, List.countP_append,
        ih fun q hq => hL q (List.mem_cons_of_mem p hq), List.count_cons]
      by_cases hb : p.2 = c.id
      · have hinner : (cities.filter fun x => x.id == p.2).map mkFavRow =
            [mkFavRow c] := by
          rw [hb, filter_id_eq_single hids hc]
          rfl
        have hpp : (p == (u, c.id)) = true := by
          cases p with
          | mk p1 p2 =>
              simp only [beq_iff_eq, Prod.mk.injEq]
              exact ⟨hp1, hb⟩
        rw [hinner, hpp]
        simp [mkFavRow]
        omega
      · have hzero : (((cities.filter fun x => x.id == p.2).map
            mkFavRow).countP fun r => r.city == c.city) = 0 := by
          rw [List.countP_eq_zero]
          intro r hr
          obtain ⟨x, hx, hxr⟩ := List.mem_map.mp hr
          have hxid : x.id = p.2 := by
            have := (List.mem_filter.mp hx).2
            simpa using this
          have hxcit : x ∈ cities := (List.mem_filter.mp hx).1
          subst hxr
          simp only [mkFavRow, beq_iff_eq]
          intro he
          have hxc : x = c := List.inj_on_of_nodup_map hnames hxcit hc he
          exact hb (by rw [← hxc]; exact hxid.symm)
        have hpp : (p == (u, c.id)) = false := by
          cases p with
          | mk p1 p2 =>
              simp only [beq_eq_false_iff_ne, ne_eq, Prod.mk.injEq, not_and]
              exact fun _ => hb
        rw [hzero, hpp]
        simp

/-- Computation of `add_city` when the catalog resolves the name. -/
theorem add_city_of_found {db : DBState} {s : String} {c : CityRow} (u : Int)
    (hfind : get_city_by_name db s = some c) :
    add_city db u s = (true, withFavs db
      (if (u, c.id) ∈ db.users_cities then db.users_cities
       else db.users_cities ++ [(u, c.id)])) := by
  unfold add_city
  rw [hfind]
  rfl

/-- A `Nodup` list counts each of its members exactly once. -/
theorem count_eq_one_of_nodup_mem {l : List (Int × Int)} {a : Int × Int}
    (hnd : l.Nodup) (ha : a ∈ l) : l.count a = 1 := by
  induction l with
  | nil => cases ha
  | cons b l ih =>
      rw [List.nodup_cons] at hnd
      obtain ⟨hb, hl⟩ := hnd
      rw [List.count_cons]
      rcases List.mem_cons.mp ha with h1 | h1
      · subst h1
        rw [List.count_eq_zero.mpr hb]
        simp
      · have hne : ¬((b == a) = true) := by
          rw [beq_iff_eq]
          intro he
          exact hb (he ▸ h1)
        rw [ih hl h1, if_neg hne]

/-- C2: adding a resolvable city twice returns `true` both times, leaves the
state of the first call unchanged (no duplicate row, no uniqueness error),
keeps exactly one `(user, city)` row, and `select_cities` lists that city
exactly once.  The `Nodup` hypotheses are the `users_cities` primary key and
the catalog's id/name uniqueness. -/
theorem add_city_idempotent (db : DBState) (u : Int) (s : String)
    (c : CityRow) (hfind : get_city_by_name db s = some c)
    (hnodup : db.users_cities.Nodup)
    (hids : (db.cities.map CityRow.id).Nodup)
    (hnames : (db.cities.map CityRow.city).Nodup) :
    (add_city db u s).1 = true ∧
      (add_city (add_city db u s).2 u s).1 = true ∧
      (add_city (add_city db u s).2 u s).2 = (add_city db u s).2 ∧
      (add_city db u s).2.users_cities.count (u, c.id) = 1 ∧
      ((select_cities (add_city (add_city db u s).2 u s).2 u).countP
        fun r => r.city == c.city) = 1 := by
  have hc : c ∈ db.cities := List.mem_of_find?_eq_some (by exact hfind)
  set F := if (u, c.id) ∈ db.users_cities then db.users_cities
      else db.users_cities ++ [(u, c.id)] with hF
  have h1 : add_city db u s = (true, withFavs db F) := by
    rw [add_city_of_found u hfind]
  have hmem : (u, c.id) ∈ F := by
    by_cases hm : (u, c.id) ∈ db.users_cities
    · rw [hF, if_pos hm]; exact hm
    · rw [hF, if_neg hm]
      exact List.mem_append_right _ (List.mem_singleton.mpr rfl)
  have hfind2 : get_city_by_name (withFavs db F) s = some c := hfind
  have h2 : add_city (withFavs db F) u s =
      (true, withFavs (withFavs db F) F) := by
    rw [add_city_of_found u hfind2]
    simp only [withFavs]
    rw [if_pos hmem]
  have hcount : F.count (u, c.id) = 1 := by
    by_cases hm : (u, c.id) ∈ db.users_cities
    · rw [hF, if_pos hm]
      exact count_eq_one_of_nodup_mem hnodup hm
    · rw [hF, if_neg hm, List.count_append, List.count_eq_zero.mpr hm,
        List.count_singleton_self]
  have hL : ∀ q ∈ F.filter (fun p => p.1 == u), q.1 = u := by
    intro q hq
    have hq2 := (List.mem_filter.mp hq).2
    simpa using hq2
  have hsel : ((select_cities (withFavs db F) u).countP
      fun r => r.city == c.city) = 1 :=
    calc ((select_cities (withFavs db F) u).countP fun r => r.city == c.city)
        = ((joinRows (withFavs db F) u).countP fun r => r.city == c.city) :=
          (List.perm_insertionSort favLE
            (joinRows (withFavs db F) u)).countP_eq _
      _ = (F.filter fun p => p.1 == u).count (u, c.id) :=
          countP_flatMap_eq_count u hids hnames hc _ hL
      _ = F.count (u, c.id) := List.count_filter (by simp)
      _ = 1 := hcount
  refine ⟨by rw [h1], by rw [h1, h2], by rw [h1, h2]; rfl,
    by rw [h1]; exact hcount, by rw [h1, h2]; exact hsel⟩

/-- Witness for C2: user 7 adds `"London"` twice to an empty favorites
table. -/
theorem add_city_idempotent_witness :
    (get_city_by_name wDB "London" = some londonRow ∧
      wDB.users_cities.Nodup ∧ (wDB.cities.map CityRow.id).Nodup ∧
      (wDB.cities.map CityRow.city).Nodup) ∧
    ((add_city wDB 7 "London").1 = true ∧
      (add_city (add_city wDB 7 "London").2 7 "London").1 = true ∧
      (add_city (add_city wDB 7 "London").2 7 "London").2 =
        (add_city wDB 7 "London").2 ∧
      (add_city wDB 7 "London").2.users_cities.count (7, londonRow.id) = 1 ∧
      ((select_cities (add_city (add_city wDB 7 "London").2 7 "London").2
          7).countP fun r => r.city == londonRow.city) = 1) :=
  ⟨⟨by decide, by decide, by decide, by decide⟩,
    add_city_idempotent wDB 7 "London" londonRow (by decide) (by decide)
      (by decide) (by decide)⟩

/-- C6: `select_cities` returns the favorites sorted by city name ascending
(the result is pairwise ordered by name); the result does not depend on the
order in which favorites were inserted (permuted favorites tables give
permuted — hence, being sorted, name-identically ordered — results); in
particular adding Zurich then Amsterdam, or Amsterdam then Zurich, both list
Amsterdam before Zurich. -/
theorem select_cities_sorted_by_name :
    (∀ (db : DBState) (u : Int), (select_cities db u).Pairwise favLE) ∧
    (∀ (db : DBState) (favs' : List (Int × Int)) (u : Int),
        db.users_cities.Perm favs' →
        (select_cities db u).Perm (select_cities (withFavs db favs') u)) ∧
    (select_cities (add_city (add_city wDB 5 "Zurich").2 5 "Amsterdam").2 5 =
        [mkFavRow amsterdamRow, mkFavRow zurichRow] ∧
      select_cities (add_city (add_city wDB 5 "Amsterdam").2 5 "Zurich").2 5 =
        [mkFavRow amsterdamRow, mkFavRow zurichRow]) := by
  refine ⟨?_, ?_, ?_, ?_⟩
  · intro db u
    exact List.sorted_insertionSort favLE (joinRows db u)
  · intro db favs' u hperm
    have hjoin : (joinRows db u).Perm (joinRows (withFavs db favs') u) :=
      List.Perm.flatMap_right _ (hperm.filter _)
    have e1 : (select_cities db u).Perm (joinRows db u) :=
      List.perm_insertionSort favLE (joinRows db u)
    have e2 : (select_cities (withFavs db favs') u).Perm
        (joinRows (withFavs db favs') u) :=
      List.perm_insertionSort favLE (joinRows (withFavs db favs') u)
    exact e1.trans (hjoin.trans e2.symm)
  · rfl
  · rfl

/-- Witness for C6's permutation-invariance part at a concrete state. -/
theorem select_cities_sorted_by_name_witness :
    wFavsDB.users_cities.Perm [(5, 3), (5, 2)] ∧
      (select_cities wFavsDB 5).Perm
        (select_cities (withFavs wFavsDB [(5, 3), (5, 2)]) 5) :=
  ⟨by decide,
    select_cities_sorted_by_name.2.1 wFavsDB [(5, 3), (5, 2)] 5 (by decide)⟩
